import Mathlib

/-!
modgraphweb: render-and-store pipeline, artifact store and retrieval path.

A shallow embedding of `modgraphweb.go`.

* Go `string` values are Lean `String`s, Go `[]byte` contents are lists of `Byte`;
  a slice that may be nil is a `Slice` (`none` is the nil slice).
* The mutable parts of the process (the `svgs` map of the `server`, the random
  source read by `crypto/rand`, and the sequence of effects performed so far)
  are threaded through the handlers as a `World`.
* The operating system is the `Env`: what running a command on given standard
  input yields.
* Requests are handled one at a time; the interleaving of concurrent handlers
  is outside this development.  `log.Printf` lines are not represented.
-/

namespace modgraphweb

/-! ## Bytes, strings, slices -/

/-- An 8-bit byte. -/
abbrev Byte := Fin 256

/-- A Go `[]byte` value: `none` is the nil slice, `some l` a non-nil slice holding `l`. -/
abbrev Slice := Option (List Byte)

/-- The bytes a slice holds (`len` and reads treat nil as empty). -/
def Slice.toList (b : Slice) : List Byte := b.getD []

/-- UTF-8 encoding of one character, as Go stores it in a `string`. -/
def utf8EncodeChar (c : Char) : List Byte :=
  let n := c.toNat
  if n < 0x80 then [Fin.ofNat n]
  else if n < 0x800 then [Fin.ofNat (0xC0 + n / 64), Fin.ofNat (0x80 + n % 64)]
  else if n < 0x10000 then
    [Fin.ofNat (0xE0 + n / 4096), Fin.ofNat (0x80 + n / 64 % 64), Fin.ofNat (0x80 + n % 64)]
  else
    [Fin.ofNat (0xF0 + n / 262144), Fin.ofNat (0x80 + n / 4096 % 64),
      Fin.ofNat (0x80 + n / 64 % 64), Fin.ofNat (0x80 + n % 64)]

/-- The conversion `[]byte(s)` of a string to its bytes. -/
def stringBytes (s : String) : List Byte := s.data.flatMap utf8EncodeChar

/-! ## Constants of `modgraphweb.go` -/

def svgContentType : String := "image/svg+xml"
def randomNameBytes : Nat := 16
def cacheControlValue : String := "max-age=3600"
def graphFormName : String := "graph"
def viewPath : String := "/view/"

def StatusOK : Nat := 200
def StatusSeeOther : Nat := 303
def StatusNotFound : Nat := 404
def StatusMethodNotAllowed : Nat := 405
def StatusInternalServerError : Nat := 500
def MethodGet : String := "GET"
def MethodPost : String := "POST"

/-! ## `encoding/hex` -/

namespace hex

/-- The digit table of `encoding/hex`. -/
def hextable : String := "0123456789abcdef"

/-- The lookup `hextable[i]`. -/
def digit (i : Nat) : Char := hextable.data.getD i '0'

/-- The two characters `hextable[v>>4]`, `hextable[v&0x0f]` that `hex.Encode` writes for `v`. -/
def encodeByte (v : Byte) : List Char := [digit (v.val >>> 4), digit (v.val &&& 0x0f)]

/-- Go's `hex.EncodeToString`: every source byte becomes two digits, in order. -/
def EncodeToString (src : List Byte) : String := String.mk (src.flatMap encodeByte)

end hex

/-- A lowercase hexadecimal digit: `0`-`9` or `a`-`f`. -/
def isLowerHex (c : Char) : Bool :=
  ('0'.toNat ≤ c.toNat && c.toNat ≤ '9'.toNat) || ('a'.toNat ≤ c.toNat && c.toNat ≤ 'f'.toNat)

/-! ## `regexp`: the fragment used by `nameRegexp` -/

namespace regexp

/-- Syntax trees of the regular expressions needed here, after `regexp/syntax`:
`^` and `$` (without the multi-line flag), a literal string, a negated one-character
class `[^c]`, the greedy `+`, a numbered capture group and concatenation. -/
inductive Regexp where
  | beginText
  | endText
  | literal (s : String)
  | notChar (c : Char)
  | plus (r : Regexp)
  | capture (i : Nat) (r : Regexp)
  | concat (r s : Regexp)

/-- A matching thread: how many characters of the text lie before it, the text still
ahead of it, and the capture groups closed so far. -/
structure Thread where
  pos : Nat
  rest : List Char
  caps : List (Nat × String)

/-- Greedy repetition, one or more times: after each round first try another round
(only after progress, so `fuel` larger than the remaining text never runs out),
then stop. -/
def iterate (f : Thread → List Thread) : Nat → Thread → List Thread
  | 0, _ => []
  | fuel + 1, t =>
    (f t).flatMap fun u => (if t.pos < u.pos then iterate f fuel u else []) ++ [u]

/-- All ways to match `re` starting at thread `t`, in the order of preference of a
backtracking (leftmost-first) matcher. -/
def run : Regexp → Thread → List Thread
  | .beginText, t => if t.pos = 0 then [t] else []
  | .endText, t => if t.rest.isEmpty then [t] else []
  | .literal s, t =>
    if s.data.isPrefixOf t.rest then
      [{ t with pos := t.pos + s.data.length, rest := t.rest.drop s.data.length }]
    else []
  | .notChar c, t =>
    match t.rest with
    | [] => []
    | d :: r => if d = c then [] else [{ t with pos := t.pos + 1, rest := r }]
  | .plus r, t => iterate (run r) (t.rest.length + 1) t
  | .capture i r, t =>
    (run r t).map fun u =>
      { u with caps := (i, String.mk (t.rest.take (u.pos - t.pos))) :: u.caps }
  | .concat r s, t => (run r t).flatMap (run s)

/-- The number of capture groups, `Regexp.NumSubexp`. -/
def NumSubexp : Regexp → Nat
  | .plus r => NumSubexp r
  | .capture _ r => NumSubexp r + 1
  | .concat r s => NumSubexp r + NumSubexp s
  | _ => 0

/-- The leftmost match: try the start positions from left to right and take the
preferred match at the first position that has one. The result is the text from
the start position on and the final thread. -/
def search (re : Regexp) : Nat → List Char → Option (List Char × Thread)
  | pos, [] => (run re { pos := pos, rest := [], caps := [] }).head?.map fun t => ([], t)
  | pos, c :: r =>
    match (run re { pos := pos, rest := c :: r, caps := [] }).head? with
    | some t => some (c :: r, t)
    | none => search re (pos + 1) r

/-- The text of a match that started at position `startPos` with `text` ahead of it
and ended in thread `t`. -/
def matchedText (text : List Char) (startPos : Nat) (t : Thread) : String :=
  String.mk (text.take (t.pos - startPos))

/-- Go's `Regexp.FindStringSubmatch`: the empty list (nil) when there is no match, else
the text of the leftmost match followed by the text of each capture group
(the empty string for a group that did not take part). -/
def FindStringSubmatch (re : Regexp) (s : String) : List String :=
  match search re 0 s.data with
  | none => []
  | some (text, t) =>
    matchedText text (s.data.length - text.length) t ::
      (List.range (NumSubexp re)).map fun i => (t.caps.lookup (i + 1)).getD ""

end regexp

/-- The parse of the pattern of `nameRegexp`, `"^" + viewPath + "([^/]+)$"`. -/
def nameRegexp : regexp.Regexp :=
  .concat .beginText
    (.concat (.literal viewPath)
      (.concat (.capture 1 (.plus (.notChar '/'))) .endText))

/-! ## The process state and its environment -/

/-- The outcome of running an external command on some standard input: it could not
be started, or it ran, wrote `stdout` and finished with or without an error
(a non-zero exit status). -/
inductive ProcResult where
  | startFailed (err : String)
  | exited (stdout : List Byte) (err : Option String)

/-- The error of a run, none when the process ran and exited with status 0. -/
def ProcResult.err : ProcResult → Option String
  | .startFailed e => some e
  | .exited _ err => err

/-- The bytes a run wrote to its standard output. -/
def ProcResult.stdout : ProcResult → List Byte
  | .startFailed _ => []
  | .exited out _ => out

/-- The operating system as the program sees it: what running the command `name`
with arguments `args` on standard input `stdin` yields. -/
structure Env where
  exec : String → List String → List Byte → ProcResult

/-- The effects a handler performs besides writing its response. -/
inductive Event where
  | exec (name : String) (args : List String) (stdin : List Byte)
  | randRead (n : Nat)
  | lock
  | unlock
  deriving DecidableEq

/-- The Go type `server`: the `svgs` map, as the list of its entries (at most one per
key is ever looked at: the first). The mutex `mu` shows in the `lock` and `unlock`
events. -/
structure server where
  svgs : List (String × Slice)

/-- The state a handler runs in: the server `s`, the bytes the random source is
yet to deliver, and the effects performed so far, oldest first. -/
structure World where
  s : server
  rand : Nat → Byte
  trace : List Event

/-- The map read `m[k]`: the zero value, the nil slice, when `k` is not a key. -/
def mapGet (m : List (String × Slice)) (k : String) : Slice := (m.lookup k).getD none

/-- The map write `m[k] = v`. -/
def mapSet (m : List (String × Slice)) (k : String) (v : Slice) : List (String × Slice) :=
  (k, v) :: m.filter fun e => e.1 != k

/-- The keys of a map. -/
def mapKeys (m : List (String × Slice)) : List String := m.map Prod.fst

/-- Record one effect. -/
def World.emit (w : World) (e : Event) : World := { w with trace := w.trace ++ [e] }

/-- The `n` bytes the next read of the random source delivers. -/
def World.draw (w : World) (n : Nat) : List Byte := (List.range n).map w.rand

/-- Go's `rand.Read(b)` for a buffer of `n` bytes: the next `n` bytes of the source.
A failing source makes `randomName` panic, which ends the process; a run that goes
on has received its bytes. -/
def randRead (w : World) (n : Nat) : List Byte × World :=
  (w.draw n, { (w.emit (.randRead n)) with rand := fun i => w.rand (n + i) })

/-- Go's `randomName`. -/
def randomName (w : World) : String × World :=
  let (b, w) := randRead w randomNameBytes
  (hex.EncodeToString b, w)

/-- Go's `(*exec.Cmd).Output` with `Stdin` set to a reader over `stdin`: the bytes
the process wrote to its standard output, and the error of the run. When the
process ran, the slice is the content of a `bytes.Buffer` filled by
`Buffer.ReadFrom`, which allocates before its first read: it is non-nil even when
nothing was written. When the process could not be started the slice is nil. -/
def Output (env : Env) (w : World) (name : String) (args : List String)
    (stdin : List Byte) : (Slice × Option String) × World :=
  let w := w.emit (.exec name args stdin)
  match env.exec name args stdin with
  | .startFailed e => ((none, some e), w)
  | .exited out err => ((some out, err), w)

/-- Go's `(*server).processModGraph`: the path for the svg, or an error. Only the
contents of `b` are used (it is read through `bytes.NewReader`). -/
def processModGraph (env : Env) (w : World) (b : List Byte) :
    (String × Option String) × World :=
  let ((dotBytes, err), w) := Output env w "modgraphviz" [] b
  match err with
  | some e => (("", some e), w)
  | none =>
    let ((svgBytes, err), w) := Output env w "dot" ["-Tsvg"] dotBytes.toList
    match err with
    | some e => (("", some e), w)
    | none =>
      let (name, w) := randomName w
      let w := w.emit .lock
      let w := { w with s := { svgs := mapSet w.s.svgs name svgBytes } }
      let w := w.emit .unlock
      ((viewPath ++ name, none), w)

/-! ## `net/http` as the handlers use it -/

/-- The parts of a `url.URL` a server request has and the handlers touch. -/
structure URL where
  Scheme : String
  Host : String
  Path : String
  RawQuery : String

/-- Go's `(*URL).String` on these parts. The escaping of the path is left out: it is
the identity on the paths that `processModGraph` returns. -/
def URL.String (u : URL) : String :=
  (if u.Scheme = "" then "" else u.Scheme ++ ":") ++
  (if u.Scheme = "" ∧ u.Host = "" then "" else "//" ++ u.Host) ++
  u.Path ++
  (if u.RawQuery = "" then "" else "?" ++ u.RawQuery)

/-- An incoming request. `Body` is what `ioutil.ReadAll(r.Body)` yields and `CloseErr`
what `r.Body.Close()` returns; `Form` is what `r.ParseMultipartForm(maxUploadSize)`
leaves in `r.Form`, or the error it returns. -/
structure Request where
  Method : String
  URL : URL
  Host : String
  Body : Except String (List Byte)
  CloseErr : Option String
  Form : Except String (List (String × List String))

/-- Go's `url.Values.Get`: the first value of the key, or the empty string. -/
def ValuesGet (v : List (String × List String)) (key : String) : String :=
  match v.lookup key with
  | some (x :: _) => x
  | _ => ""

/-- What a handler has written to its `http.ResponseWriter`: the header map, the
status code once it is written, and the body. Writes do not fail. -/
structure ResponseWriter where
  header : List (String × String)
  status : Option Nat
  body : List Byte
  deriving DecidableEq

/-- The response writer a handler is started with. -/
def ResponseWriter.new : ResponseWriter := { header := [], status := none, body := [] }

/-- The header write `w.Header().Set(k, v)`. -/
def ResponseWriter.Set (w : ResponseWriter) (k v : String) : ResponseWriter :=
  { w with header := (k, v) :: w.header.filter fun e => e.1 != k }

/-- The header read `w.Header().Get(k)`, none when the key is not set. -/
def ResponseWriter.Get (w : ResponseWriter) (k : String) : Option String := w.header.lookup k

/-- The status write `w.WriteHeader(code)`: only the first call takes effect. -/
def ResponseWriter.WriteHeader (w : ResponseWriter) (code : Nat) : ResponseWriter :=
  match w.status with
  | some _ => w
  | none => { w with status := some code }

/-- The body write `w.Write(b)`: the status defaults to 200 OK on the first write. -/
def ResponseWriter.Write (w : ResponseWriter) (b : List Byte) : ResponseWriter :=
  let w := w.WriteHeader StatusOK
  { w with body := w.body ++ b }

/-- Go's `http.Error`: a plain-text reply with the given status and message. -/
def httpError (w : ResponseWriter) (error : String) (code : Nat) : ResponseWriter :=
  let w := w.Set "Content-Type" "text/plain; charset=utf-8"
  let w := w.Set "X-Content-Type-Options" "nosniff"
  let w := w.WriteHeader code
  w.Write (stringBytes (error ++ "\n"))

/-- Go's `http.Redirect` for a request whose method is neither GET nor HEAD (no
body is sent) and a target that is already a clean absolute path. -/
def httpRedirect (w : ResponseWriter) (url : String) (code : Nat) : ResponseWriter :=
  (w.Set "Location" url).WriteHeader code

/-- Go's `cacheable`. -/
def cacheable (w : ResponseWriter) : ResponseWriter := w.Set "Cache-Control" cacheControlValue

/-! ## The handlers -/

/-- Go's `(*server).uploadHandlerWithErr`. -/
def uploadHandlerWithErr (env : Env) (w : World) (rw : ResponseWriter) (r : Request) :
    (ResponseWriter × Option String) × World :=
  match r.Form with
  | .error e => ((rw, some e), w)
  | .ok form =>
    let contents := ValuesGet form graphFormName
    if contents = "" then ((rw, some "no graph contents"), w)
    else
      let ((path, err), w) := processModGraph env w (stringBytes contents)
      match err with
      | some e => ((rw, some e), w)
      | none => ((httpRedirect rw path StatusSeeOther, none), w)

/-- Go's `(*server).uploadHandler`. -/
def uploadHandler (env : Env) (w : World) (rw : ResponseWriter) (r : Request) :
    ResponseWriter × World :=
  if r.Method ≠ MethodPost then (httpError rw "wrong method" StatusMethodNotAllowed, w)
  else
    let ((rw, err), w) := uploadHandlerWithErr env w rw r
    match err with
    | some e => (httpError rw e StatusInternalServerError, w)
    | none => (rw, w)

/-- Go's `(*server).rawHandlerWithErr`. -/
def rawHandlerWithErr (env : Env) (w : World) (rw : ResponseWriter) (r : Request) :
    (ResponseWriter × Option String) × World :=
  match r.Body with
  | .error e => ((rw, some e), w)
  | .ok bodyBytes =>
    match r.CloseErr with
    | some e => ((rw, some e), w)
    | none =>
      let ((path, err), w) := processModGraph env w bodyBytes
      match err with
      | some e => ((rw, some e), w)
      | none =>
        let rw := rw.Set "Content-Type" "text/plain;charset=utf-8"
        let u : URL := { r.URL with Scheme := "https", Host := r.Host, Path := path }
        ((rw.Write (stringBytes ("Open: " ++ u.String ++ "\n")), none), w)

/-- Go's `(*server).rawHandler`. -/
def rawHandler (env : Env) (w : World) (rw : ResponseWriter) (r : Request) :
    ResponseWriter × World :=
  if r.Method ≠ MethodPost then (httpError rw "wrong method" StatusMethodNotAllowed, w)
  else
    let ((rw, err), w) := rawHandlerWithErr env w rw r
    match err with
    | some e => (httpError rw e StatusInternalServerError, w)
    | none => (rw, w)

/-- Go's `(*server).serveSVG`. -/
def serveSVG (w : World) (rw : ResponseWriter) (r : Request) : ResponseWriter × World :=
  if r.Method ≠ MethodGet then (httpError rw "wrong method" StatusMethodNotAllowed, w)
  else
    let submatches := regexp.FindStringSubmatch nameRegexp r.URL.Path
    if submatches.length ≠ 2 then (httpError rw "not found" StatusNotFound, w)
    else
      let name := submatches.getD 1 ""
      let w := w.emit .lock
      match mapGet w.s.svgs name with
      | none => (httpError rw "not found" StatusNotFound, w.emit .unlock)
      | some svgBytes =>
        let rw := cacheable rw
        let rw := rw.Set "Content-Type" svgContentType
        (rw.Write svgBytes, w.emit .unlock)

/-- A GET request for `path`. -/
def getRequest (path : String) : Request :=
  { Method := MethodGet, URL := { Scheme := "", Host := "", Path := path, RawQuery := "" },
    Host := "", Body := .ok [], CloseErr := none, Form := .ok [] }

/-! ## Concrete environments, states and requests -/

/-- An environment in which every command succeeds and copies its input to its output. -/
def echoEnv : Env := { exec := fun _ _ stdin => .exited stdin none }

/-- An environment in which no command can be started. -/
def noToolsEnv : Env := { exec := fun _ _ _ => .startFailed "executable file not found" }

/-- An environment in which `modgraphviz` copies its input and `dot` writes one byte
and exits with status 1. -/
def dotFailsEnv : Env :=
  { exec := fun name _ stdin =>
      if name = "dot" then .exited [60] (some "exit status 1") else .exited stdin none }

/-- A freshly started server: an empty map, a random source delivering `0, 1, 2, ...`
and no effects yet. -/
def freshWorld : World := { s := { svgs := [] }, rand := fun i => Fin.ofNat i, trace := [] }

/-- A POST request carrying `body`, with the parsed form `form`. -/
def postRequest (path : String) (body : List Byte) (form : List (String × List String)) :
    Request :=
  { Method := MethodPost, URL := { Scheme := "", Host := "", Path := path, RawQuery := "" },
    Host := "localhost:8080", Body := .ok body, CloseErr := none, Form := .ok form }

/-! # Theorems -/

/-! ## Hex encoding -/

namespace hex

theorem encodeByte_eq (v : Byte) : encodeByte v = [digit (v.val / 16), digit (v.val % 16)] := by
  have h1 : v.val >>> 4 = v.val / 16 := Nat.shiftRight_eq_div_pow v.val 4
  have h2 : v.val &&& 0x0f = v.val % 16 := Nat.and_pow_two_sub_one_eq_mod v.val 4
  rw [encodeByte, h1, h2]

theorem digit_isLowerHex : ∀ i : Fin 16, isLowerHex (digit i.val) = true := by decide

theorem digit_injective : ∀ i j : Fin 16, digit i.val = digit j.val → i = j := by decide

theorem encodeByte_isLowerHex (v : Byte) : ∀ c ∈ encodeByte v, isLowerHex c = true := by
  have hv := v.isLt
  have h1 : v.val / 16 < 16 := by omega
  have h2 : v.val % 16 < 16 := Nat.mod_lt _ (by decide)
  intro c hc
  rw [encodeByte_eq] at hc
  simp only [List.mem_cons, List.mem_singleton, List.mem_nil_iff, or_false] at hc
  rcases hc with rfl | rfl
  · exact digit_isLowerHex ⟨_, h1⟩
  · exact digit_isLowerHex ⟨_, h2⟩

theorem encodeByte_injective (u v : Byte) (h : encodeByte u = encodeByte v) : u = v := by
  have hu := u.isLt
  have hv := v.isLt
  rw [encodeByte_eq, encodeByte_eq] at h
  simp only [List.cons.injEq, and_true] at h
  have e1 := congrArg Fin.val
    (digit_injective ⟨u.val / 16, by omega⟩ ⟨v.val / 16, by omega⟩ h.1)
  have e2 := congrArg Fin.val
    (digit_injective ⟨u.val % 16, Nat.mod_lt _ (by decide)⟩
      ⟨v.val % 16, Nat.mod_lt _ (by decide)⟩ h.2)
  simp only at e1 e2
  apply Fin.ext
  omega

theorem EncodeToString_data (src : List Byte) :
    (EncodeToString src).data = src.flatMap encodeByte := rfl

theorem EncodeToString_length (src : List Byte) :
    (EncodeToString src).length = 2 * src.length := by
  show (src.flatMap encodeByte).length = 2 * src.length
  induction src with
  | nil => rfl
  | cons v src ih =>
    rw [List.flatMap_cons, List.length_append, ih, encodeByte_eq]
    simp only [List.length_cons, List.length_nil]
    omega

theorem EncodeToString_isLowerHex (src : List Byte) :
    ∀ c ∈ (EncodeToString src).data, isLowerHex c = true := by
  intro c hc
  rw [EncodeToString_data, List.mem_flatMap] at hc
  obtain ⟨v, _, hv⟩ := hc
  exact encodeByte_isLowerHex v c hv

theorem EncodeToString_injective :
    ∀ r1 r2 : List Byte, EncodeToString r1 = EncodeToString r2 → r1 = r2 := by
  intro r1
  induction r1 with
  | nil =>
    intro r2 h
    cases r2 with
    | nil => rfl
    | cons v r2 =>
      have := congrArg String.length h
      rw [EncodeToString_length, EncodeToString_length] at this
      simp at this
  | cons u r1 ih =>
    intro r2 h
    cases r2 with
    | nil =>
      have := congrArg String.length h
      rw [EncodeToString_length, EncodeToString_length] at this
      simp at this
    | cons v r2 =>
      have hd := congrArg String.data h
      rw [EncodeToString_data, EncodeToString_data, List.flatMap_cons, List.flatMap_cons,
        encodeByte_eq u, encodeByte_eq v] at hd
      simp only [List.cons_append, List.nil_append, List.cons.injEq] at hd
      have huv : u = v := by
        apply encodeByte_injective
        rw [encodeByte_eq, encodeByte_eq, hd.1, hd.2.1]
      have hrest : EncodeToString r1 = EncodeToString r2 := by
        show String.mk _ = String.mk _
        rw [hd.2.2]
      rw [huv, ih r2 hrest]

/-- A lowercase hexadecimal digit is never the path separator. -/
theorem slash_not_lowerHex (l : List Char) (h : ∀ c ∈ l, isLowerHex c = true) : '/' ∉ l :=
  fun hm => absurd (h '/' hm) (by decide)

end hex

/-! ## The matcher on `nameRegexp` -/

namespace regexp

theorem run_endText (t : Thread) : run .endText t = if t.rest.isEmpty then [t] else [] := rfl

theorem run_notChar (c : Char) (t : Thread) :
    run (.notChar c) t =
      match t.rest with
      | [] => []
      | d :: r => if d = c then [] else [{ t with pos := t.pos + 1, rest := r }] := rfl

theorem run_concat (a b : Regexp) (t : Thread) :
    run (.concat a b) t = (run a t).flatMap (run b) := rfl

theorem run_capture (i : Nat) (r : Regexp) (t : Thread) :
    run (.capture i r) t = (run r t).map fun u =>
      { u with caps := (i, String.mk (t.rest.take (u.pos - t.pos))) :: u.caps } := rfl

theorem run_plus (r : Regexp) (t : Thread) :
    run (.plus r) t = iterate (run r) (t.rest.length + 1) t := rfl

theorem iterate_succ (f : Thread → List Thread) (n : Nat) (t : Thread) :
    iterate f (n + 1) t =
      (f t).flatMap fun u => (if t.pos < u.pos then iterate f n u else []) ++ [u] := rfl

theorem flatMap_endText_map (l : List Thread) (g : Thread → Thread)
    (hg : ∀ u, (g u).rest = u.rest) :
    (l.map g).flatMap (run .endText) = (l.filter fun u => u.rest.isEmpty).map g := by
  induction l with
  | nil => rfl
  | cons a l ih =>
    rw [List.map_cons, List.flatMap_cons, ih, List.filter_cons, run_endText, hg]
    cases h : a.rest.isEmpty <;> simp

theorem iterate_notChar_filter (c : Char) (xs : List Char) :
    ∀ (n : Nat) (t : Thread), t.rest = xs → xs.length < n →
      (iterate (run (.notChar c)) n t).filter (fun u => u.rest.isEmpty) =
        if xs ≠ [] ∧ c ∉ xs then [{ pos := t.pos + xs.length, rest := [], caps := t.caps }]
        else [] := by
  induction xs with
  | nil =>
    intro n t ht hn
    cases n with
    | zero => simp at hn
    | succ n => rw [iterate_succ, run_notChar, ht]; simp
  | cons d r ih =>
    intro n t ht hn
    cases n with
    | zero => simp at hn
    | succ n =>
      simp only [List.length_cons, Nat.add_lt_add_iff_right] at hn
      rw [iterate_succ, run_notChar, ht]
      by_cases hd : d = c
      · simp [hd]
      · have hcd : ¬ c = d := fun h => hd h.symm
        simp only [hd, if_false, List.flatMap_cons, List.flatMap_nil,
          List.append_nil, Nat.lt_add_one, if_true, List.filter_append]
        rw [ih n _ rfl hn]
        cases r with
        | nil => simp [hcd]
        | cons e r' => simp [hcd, Nat.add_assoc, Nat.add_comm 1]

/-- A capture group around `[^c]+` followed by `$` matches exactly when the text ahead
is non-empty and free of `c`, and then captures all of it. -/
theorem run_capture_plus_endText (c : Char) (i : Nat) (t : Thread) :
    run (.concat (.capture i (.plus (.notChar c))) .endText) t =
      if t.rest ≠ [] ∧ c ∉ t.rest then
        [{ pos := t.pos + t.rest.length, rest := [], caps := (i, String.mk t.rest) :: t.caps }]
      else [] := by
  rw [run_concat, run_capture, run_plus,
    flatMap_endText_map _
      (fun u => { u with caps := (i, String.mk (t.rest.take (u.pos - t.pos))) :: u.caps })
      (fun _ => rfl),
    iterate_notChar_filter c t.rest _ t rfl (Nat.lt_succ_self _)]
  by_cases hc : t.rest ≠ [] ∧ c ∉ t.rest
  · simp [hc]
  · rw [if_neg hc, if_neg hc]; rfl

theorem run_nameRegexp (p : Nat) (xs : List Char) :
    run nameRegexp { pos := p, rest := xs, caps := [] } =
      if p = 0 ∧ viewPath.data.isPrefixOf xs = true ∧ xs.drop 6 ≠ [] ∧ '/' ∉ xs.drop 6 then
        [{ pos := 6 + (xs.drop 6).length, rest := [],
           caps := [(1, String.mk (xs.drop 6))] }]
      else [] := by
  have hbeg : ∀ t : Thread, run .beginText t = if t.pos = 0 then [t] else [] := fun _ => rfl
  have hlit : ∀ t : Thread, run (.literal viewPath) t =
      if viewPath.data.isPrefixOf t.rest then
        [{ t with pos := t.pos + 6, rest := t.rest.drop 6 }]
      else [] := fun _ => rfl
  unfold nameRegexp
  rw [run_concat, hbeg]
  by_cases hp : p = 0
  · subst hp
    rw [if_pos rfl, List.flatMap_cons, List.flatMap_nil, List.append_nil, run_concat, hlit]
    by_cases hv : viewPath.data.isPrefixOf xs = true
    · rw [if_pos hv, List.flatMap_cons, List.flatMap_nil, List.append_nil,
        run_capture_plus_endText]
      by_cases hc : xs.drop 6 ≠ [] ∧ '/' ∉ xs.drop 6
      · rw [if_pos hc, if_pos ⟨rfl, hv, hc⟩]
      · rw [if_neg hc, if_neg (fun h => hc h.2.2)]
    · rw [if_neg hv, if_neg (fun h => hv h.2.1)]; rfl
  · rw [if_neg hp, if_neg (fun h => hp h.1)]; rfl

theorem search_nameRegexp_pos (xs : List Char) :
    ∀ p : Nat, 0 < p → search nameRegexp p xs = none := by
  induction xs with
  | nil =>
    intro p hp
    have : ¬ p = 0 := Nat.pos_iff_ne_zero.mp hp
    rw [search, run_nameRegexp]
    simp [this]
  | cons d r ih =>
    intro p hp
    have : ¬ p = 0 := Nat.pos_iff_ne_zero.mp hp
    rw [search, run_nameRegexp]
    simp [this, ih (p + 1) (Nat.succ_pos p)]

theorem search_nameRegexp_zero (xs : List Char) :
    search nameRegexp 0 xs =
      if viewPath.data.isPrefixOf xs = true ∧ xs.drop 6 ≠ [] ∧ '/' ∉ xs.drop 6 then
        some (xs, { pos := 6 + (xs.drop 6).length, rest := [],
                    caps := [(1, String.mk (xs.drop 6))] })
      else none := by
  by_cases hc : viewPath.data.isPrefixOf xs = true ∧ xs.drop 6 ≠ [] ∧ '/' ∉ xs.drop 6
  · rw [if_pos hc]
    cases xs with
    | nil => simp at hc
    | cons d r => rw [search, run_nameRegexp, if_pos ⟨rfl, hc⟩]; rfl
  · rw [if_neg hc]
    cases xs with
    | nil => rw [search, run_nameRegexp, if_neg (fun h => hc h.2)]; rfl
    | cons d r =>
      rw [search, run_nameRegexp, if_neg (fun h => hc h.2)]
      exact search_nameRegexp_pos r 1 Nat.one_pos

/-- What `nameRegexp` does on every string: a match exactly on `/view/` followed by a
non-empty rest free of `/`, yielding the whole string and that rest. -/
theorem FindStringSubmatch_nameRegexp (s : String) :
    FindStringSubmatch nameRegexp s =
      if viewPath.data.isPrefixOf s.data = true ∧ s.data.drop 6 ≠ [] ∧ '/' ∉ s.data.drop 6 then
        [s, String.mk (s.data.drop 6)]
      else [] := by
  unfold FindStringSubmatch
  rw [search_nameRegexp_zero]
  by_cases hc : viewPath.data.isPrefixOf s.data = true ∧ s.data.drop 6 ≠ [] ∧ '/' ∉ s.data.drop 6
  · have hlen : 6 + (s.data.drop 6).length = s.data.length := by
      have := List.IsPrefix.length_le (List.isPrefixOf_iff_prefix.mp hc.1)
      have h6 : viewPath.data.length = 6 := rfl
      rw [List.length_drop]; omega
    rw [if_pos hc, if_pos hc]
    have hnum : NumSubexp nameRegexp = 1 := rfl
    simp only [matchedText, hlen, hnum, Nat.sub_self, Nat.sub_zero, List.take_length,
      List.map_cons, List.map_nil, List.range_succ, List.range_zero, List.nil_append]
    rfl
  · rw [if_neg hc, if_neg hc]

end regexp

/-! ## The map -/

theorem mapGet_mapSet_same (m : List (String × Slice)) (k : String) (v : Slice) :
    mapGet (mapSet m k v) k = v := by
  simp [mapGet, mapSet, List.lookup]

theorem lookup_filter_ne (m : List (String × Slice)) (k k' : String) (h : k' ≠ k) :
    (m.filter fun e => e.1 != k).lookup k' = m.lookup k' := by
  induction m with
  | nil => rfl
  | cons e m ih =>
    obtain ⟨a, v⟩ := e
    by_cases ha : a = k
    · subst ha
      have hne : (k' == a) = false := by simpa using h
      simp [List.filter_cons, List.lookup, hne, ih]
    · have hf : (a != k) = true := by simpa using ha
      rw [List.filter_cons]
      simp only [hf, if_true, List.lookup]
      rw [ih]

theorem mapGet_mapSet_other (m : List (String × Slice)) (k k' : String) (v : Slice)
    (h : k' ≠ k) : mapGet (mapSet m k v) k' = mapGet m k' := by
  have hne : (k' == k) = false := by simpa using h
  simp only [mapGet, mapSet, List.lookup, hne]
  rw [lookup_filter_ne m k k' h]

theorem mapGet_of_not_key (m : List (String × Slice)) (k : String) (h : k ∉ mapKeys m) :
    mapGet m k = none := by
  induction m with
  | nil => rfl
  | cons e m ih =>
    obtain ⟨a, v⟩ := e
    simp only [mapKeys, List.map_cons, List.mem_cons, not_or] at h
    have hne : (k == a) = false := by simpa using h.1
    have := ih h.2
    simp only [mapGet, List.lookup, hne] at this ⊢
    exact this

/-! ## The pipeline -/

theorem draw_length (w : World) (n : Nat) : (w.draw n).length = n := by
  simp [World.draw]

theorem randomName_length (w : World) :
    (hex.EncodeToString (w.draw randomNameBytes)).data.length = 32 := by
  show (hex.EncodeToString (w.draw randomNameBytes)).length = 32
  rw [hex.EncodeToString_length, draw_length]
  rfl

theorem processModGraph_ok (env : Env) (w : World) (b d svg : List Byte)
    (h1 : env.exec "modgraphviz" [] b = .exited d none)
    (h2 : env.exec "dot" ["-Tsvg"] d = .exited svg none) :
    processModGraph env w b =
      ((viewPath ++ hex.EncodeToString (w.draw randomNameBytes), none),
       { s := { svgs := mapSet w.s.svgs (hex.EncodeToString (w.draw randomNameBytes))
                  (some svg) },
         rand := fun i => w.rand (randomNameBytes + i),
         trace := w.trace ++ [.exec "modgraphviz" [] b, .exec "dot" ["-Tsvg"] d,
           .randRead randomNameBytes, .lock, .unlock] }) := by
  simp [processModGraph, Output, h1, h2, randomName, randRead, World.emit, World.draw,
    Slice.toList]

theorem processModGraph_stage1_fails (env : Env) (w : World) (b : List Byte) (e : String)
    (h : (env.exec "modgraphviz" [] b).err = some e) :
    processModGraph env w b = (("", some e), w.emit (.exec "modgraphviz" [] b)) := by
  cases hr : env.exec "modgraphviz" [] b with
  | startFailed e' =>
    rw [hr] at h
    simp only [ProcResult.err, Option.some.injEq] at h
    simp [processModGraph, Output, hr, h]
  | exited out err =>
    rw [hr] at h
    simp only [ProcResult.err] at h
    simp [processModGraph, Output, hr, h]

theorem processModGraph_stage2_fails (env : Env) (w : World) (b : List Byte) (e : String)
    (h1 : (env.exec "modgraphviz" [] b).err = none)
    (h2 : (env.exec "dot" ["-Tsvg"] (env.exec "modgraphviz" [] b).stdout).err = some e) :
    processModGraph env w b =
      (("", some e), (w.emit (.exec "modgraphviz" [] b)).emit
        (.exec "dot" ["-Tsvg"] (env.exec "modgraphviz" [] b).stdout)) := by
  cases hr : env.exec "modgraphviz" [] b with
  | startFailed e' => rw [hr] at h1; simp [ProcResult.err] at h1
  | exited out err =>
    rw [hr] at h1 h2
    simp only [ProcResult.err] at h1
    simp only [ProcResult.stdout] at h2 ⊢
    subst h1
    cases hr2 : env.exec "dot" ["-Tsvg"] out with
    | startFailed e' =>
      rw [hr2] at h2
      simp only [ProcResult.err, Option.some.injEq] at h2
      simp [processModGraph, Output, hr, hr2, h2, Slice.toList]
    | exited out2 err2 =>
      rw [hr2] at h2
      simp only [ProcResult.err] at h2
      simp [processModGraph, Output, hr, hr2, h2, Slice.toList]

/-! ## The retrieval path -/

theorem viewPath_append_data (t : String) : (viewPath ++ t).data = viewPath.data ++ t.data :=
  String.data_append viewPath t

theorem FindStringSubmatch_view (t : String) :
    regexp.FindStringSubmatch nameRegexp (viewPath ++ t) =
      if t.data ≠ [] ∧ '/' ∉ t.data then [viewPath ++ t, t] else [] := by
  have h6 : viewPath.data.length = 6 := rfl
  have hpre : viewPath.data.isPrefixOf (viewPath.data ++ t.data) = true :=
    List.isPrefixOf_iff_prefix.mpr (List.prefix_append _ _)
  have hdrop : (viewPath.data ++ t.data).drop 6 = t.data := by
    rw [← h6, List.drop_left]
  rw [regexp.FindStringSubmatch_nameRegexp, viewPath_append_data, hdrop]
  by_cases hc : t.data ≠ [] ∧ '/' ∉ t.data
  · rw [if_pos hc, if_pos ⟨hpre, hc⟩]
  · rw [if_neg hc, if_neg (fun h => hc h.2)]

theorem string_data_ne_nil (t : String) (h : t ≠ "") : t.data ≠ [] := by
  intro hd
  apply h
  cases t
  simp only at hd
  rw [hd]

theorem serveSVG_no_match (w : World) (rw : ResponseWriter) (r : Request)
    (hm : r.Method = MethodGet)
    (hp : regexp.FindStringSubmatch nameRegexp r.URL.Path = []) :
    serveSVG w rw r = (httpError rw "not found" StatusNotFound, w) := by
  simp [serveSVG, hm, hp]

theorem serveSVG_match (w : World) (rw : ResponseWriter) (r : Request) (id : String)
    (hm : r.Method = MethodGet) (hp : r.URL.Path = viewPath ++ id)
    (hid : id.data ≠ [] ∧ '/' ∉ id.data) :
    serveSVG w rw r =
      match mapGet w.s.svgs id with
      | none => (httpError rw "not found" StatusNotFound, (w.emit .lock).emit .unlock)
      | some svgBytes =>
        (((cacheable rw).Set "Content-Type" svgContentType).Write svgBytes,
          (w.emit .lock).emit .unlock) := by
  have hf := FindStringSubmatch_view id
  rw [if_pos hid] at hf
  simp only [serveSVG, hm, hp, hf, ne_eq, not_true_eq_false, if_false, List.length_cons,
    List.length_nil, List.getD_cons_succ, List.getD_cons_zero, World.emit]

/-! ## The claims -/

/-- C1: when both external stages succeed on the input `b`, `processModGraph` returns
the path `/view/` followed by an identifier, and a GET for that path handled by
`serveSVG` right afterwards answers 200 with the SVG content type and a body equal
to the output `svg` of the second stage run on the output of the first, for every
`svg` (the empty one included). -/
theorem processModGraph_then_serveSVG (env : Env) (w : World) (b d svg : List Byte)
    (_hb : b ≠ [])
    (h1 : env.exec "modgraphviz" [] b = .exited d none)
    (h2 : env.exec "dot" ["-Tsvg"] d = .exited svg none) :
    ∃ id : String,
      (processModGraph env w b).1 = (viewPath ++ id, none) ∧
      ∀ r : Request, r.Method = MethodGet → r.URL.Path = viewPath ++ id →
        (serveSVG (processModGraph env w b).2 ResponseWriter.new r).1.status = some StatusOK ∧
        (serveSVG (processModGraph env w b).2 ResponseWriter.new r).1.Get "Content-Type"
          = some svgContentType ∧
        (serveSVG (processModGraph env w b).2 ResponseWriter.new r).1.body = svg := by
  refine ⟨hex.EncodeToString (w.draw randomNameBytes), ?_, ?_⟩
  · rw [processModGraph_ok env w b d svg h1 h2]
  · intro r hm hp
    have hlen : (hex.EncodeToString (w.draw randomNameBytes)).data.length = 32 :=
      randomName_length w
    have hid : (hex.EncodeToString (w.draw randomNameBytes)).data ≠ [] ∧
        '/' ∉ (hex.EncodeToString (w.draw randomNameBytes)).data :=
      ⟨fun h => by rw [h] at hlen; simp at hlen,
        hex.slash_not_lowerHex _ (hex.EncodeToString_isLowerHex _)⟩
    rw [processModGraph_ok env w b d svg h1 h2, serveSVG_match _ _ r _ hm hp hid]
    simp only [mapGet_mapSet_same]
    refine ⟨rfl, rfl, ?_⟩
    simp [ResponseWriter.Write, ResponseWriter.WriteHeader, ResponseWriter.Set, cacheable,
      ResponseWriter.new]

/-- C1, at a concrete input: the three bytes `A B` through the echoing environment. -/
theorem processModGraph_then_serveSVG_witness :
    ∃ id : String,
      (processModGraph echoEnv freshWorld [65, 32, 66]).1 = (viewPath ++ id, none) ∧
      ∀ r : Request, r.Method = MethodGet → r.URL.Path = viewPath ++ id →
        (serveSVG (processModGraph echoEnv freshWorld [65, 32, 66]).2 ResponseWriter.new r).1.status
          = some StatusOK ∧
        (serveSVG (processModGraph echoEnv freshWorld [65, 32, 66]).2 ResponseWriter.new r).1.Get
          "Content-Type" = some svgContentType ∧
        (serveSVG (processModGraph echoEnv freshWorld [65, 32, 66]).2 ResponseWriter.new r).1.body
          = [65, 32, 66] :=
  processModGraph_then_serveSVG echoEnv freshWorld [65, 32, 66] [65, 32, 66] [65, 32, 66]
    (by decide) rfl rfl

/-- C2: when `modgraphviz` fails, or succeeds and `dot -Tsvg` then fails on its output,
`processModGraph` returns that error with the empty path, the server (its `svgs`
map) is what it was before, the random source has not been read, and the only
effects performed are runs of external commands. -/
theorem processModGraph_failure (env : Env) (w : World) (b : List Byte) (e : String)
    (h : (env.exec "modgraphviz" [] b).err = some e ∨
      ((env.exec "modgraphviz" [] b).err = none ∧
        (env.exec "dot" ["-Tsvg"] (env.exec "modgraphviz" [] b).stdout).err = some e)) :
    (processModGraph env w b).1 = ("", some e) ∧
    (processModGraph env w b).2.s.svgs = w.s.svgs ∧
    (processModGraph env w b).2.rand = w.rand ∧
    ∀ ev ∈ (processModGraph env w b).2.trace,
      ev ∈ w.trace ∨ ∃ name args stdin, ev = .exec name args stdin := by
  rcases h with h | ⟨h1, h2⟩
  · rw [processModGraph_stage1_fails env w b e h]
    refine ⟨rfl, rfl, rfl, ?_⟩
    intro ev hev
    simp only [World.emit, List.mem_append, List.mem_singleton] at hev
    rcases hev with hev | hev
    · exact Or.inl hev
    · exact Or.inr ⟨_, _, _, hev⟩
  · rw [processModGraph_stage2_fails env w b e h1 h2]
    refine ⟨rfl, rfl, rfl, ?_⟩
    intro ev hev
    simp only [World.emit, List.mem_append, List.mem_singleton] at hev
    rcases hev with (hev | hev) | hev
    · exact Or.inl hev
    · exact Or.inr ⟨_, _, _, hev⟩
    · exact Or.inr ⟨_, _, _, hev⟩

/-- C2, at concrete inputs: no tool can be started, and `dot` fails after partial output. -/
theorem processModGraph_failure_witness :
    ((processModGraph noToolsEnv freshWorld [65, 32, 66]).1
        = ("", some "executable file not found") ∧
      (processModGraph noToolsEnv freshWorld [65, 32, 66]).2.s.svgs = freshWorld.s.svgs ∧
      (processModGraph noToolsEnv freshWorld [65, 32, 66]).2.rand = freshWorld.rand ∧
      ∀ ev ∈ (processModGraph noToolsEnv freshWorld [65, 32, 66]).2.trace,
        ev ∈ freshWorld.trace ∨ ∃ name args stdin, ev = .exec name args stdin) ∧
    ((processModGraph dotFailsEnv freshWorld [65, 32, 66]).1 = ("", some "exit status 1") ∧
      (processModGraph dotFailsEnv freshWorld [65, 32, 66]).2.s.svgs = freshWorld.s.svgs ∧
      (processModGraph dotFailsEnv freshWorld [65, 32, 66]).2.rand = freshWorld.rand ∧
      ∀ ev ∈ (processModGraph dotFailsEnv freshWorld [65, 32, 66]).2.trace,
        ev ∈ freshWorld.trace ∨ ∃ name args stdin, ev = .exec name args stdin) :=
  ⟨processModGraph_failure noToolsEnv freshWorld [65, 32, 66] "executable file not found"
      (Or.inl rfl),
    processModGraph_failure dotFailsEnv freshWorld [65, 32, 66] "exit status 1"
      (Or.inr ⟨rfl, rfl⟩)⟩

/-- C3 fails on the code: `processModGraph` has no check for empty input. On the empty
byte sequence it runs `modgraphviz` as its first effect, whatever the environment;
and a POST of an empty body to `rawHandler`, with both tools succeeding, is answered
200 after both tools ran and an artifact was stored. -/
theorem processModGraph_empty_input_runs_stage1 :
    (∀ (env : Env) (w : World), ∃ more : List Event,
      (processModGraph env w []).2.trace = w.trace ++ Event.exec "modgraphviz" [] [] :: more) ∧
    (rawHandler echoEnv freshWorld ResponseWriter.new (postRequest "/raw" [] [])).1.status
      = some StatusOK ∧
    (rawHandler echoEnv freshWorld ResponseWriter.new (postRequest "/raw" [] [])).2.trace
      = [.exec "modgraphviz" [] [], .exec "dot" ["-Tsvg"] [], .randRead 16, .lock, .unlock] ∧
    (rawHandler echoEnv freshWorld ResponseWriter.new (postRequest "/raw" [] [])).2.s.svgs
      = [("000102030405060708090a0b0c0d0e0f", some [])] := by
  refine ⟨?_, ?_, ?_, ?_⟩
  · intro env w
    cases h1 : (env.exec "modgraphviz" [] []).err with
    | some e =>
      rw [processModGraph_stage1_fails env w [] e h1]
      exact ⟨[], rfl⟩
    | none =>
      cases h2 : (env.exec "dot" ["-Tsvg"] (env.exec "modgraphviz" [] []).stdout).err with
      | some e =>
        rw [processModGraph_stage2_fails env w [] e h1 h2]
        exact ⟨[.exec "dot" ["-Tsvg"] (env.exec "modgraphviz" [] []).stdout],
          by simp [World.emit]⟩
      | none =>
        cases hr : env.exec "modgraphviz" [] [] with
        | startFailed e' => rw [hr] at h1; simp [ProcResult.err] at h1
        | exited out err =>
          rw [hr] at h1 h2
          simp only [ProcResult.err] at h1
          simp only [ProcResult.stdout] at h2
          subst h1
          cases hr2 : env.exec "dot" ["-Tsvg"] out with
          | startFailed e' => rw [hr2] at h2; simp [ProcResult.err] at h2
          | exited out2 err2 =>
            rw [hr2] at h2
            simp only [ProcResult.err] at h2
            subst h2
            rw [processModGraph_ok env w [] out out2 hr hr2]
            exact ⟨[.exec "dot" ["-Tsvg"] out, .randRead randomNameBytes, .lock, .unlock],
              by simp⟩
  · decide
  · decide
  · decide

/-- C4: for every non-empty token `t` of lowercase hexadecimal characters,
`nameRegexp.FindStringSubmatch("/view/" + t)` has exactly two elements: the whole
path, then `t` itself. -/
theorem nameRegexp_matches_hex_token (t : String) (hne : t ≠ "")
    (hhex : ∀ c ∈ t.data, isLowerHex c = true) :
    regexp.FindStringSubmatch nameRegexp (viewPath ++ t) = [viewPath ++ t, t] ∧
    (regexp.FindStringSubmatch nameRegexp (viewPath ++ t)).length = 2 := by
  have hf := FindStringSubmatch_view t
  rw [if_pos ⟨string_data_ne_nil t hne, hex.slash_not_lowerHex _ hhex⟩] at hf
  rw [hf]
  exact ⟨rfl, rfl⟩

/-- C4, at the 32-character token of `TestRegexp`. -/
theorem nameRegexp_matches_hex_token_witness :
    regexp.FindStringSubmatch nameRegexp (viewPath ++ "5b9d37f5337909968412a123cfc00973")
      = [viewPath ++ "5b9d37f5337909968412a123cfc00973", "5b9d37f5337909968412a123cfc00973"] ∧
    (regexp.FindStringSubmatch nameRegexp
      (viewPath ++ "5b9d37f5337909968412a123cfc00973")).length = 2 :=
  nameRegexp_matches_hex_token "5b9d37f5337909968412a123cfc00973" (by decide) (by decide)

/-- C5: a path that does not start with `/view/`, or whose part after `/view/` is empty
or contains a `/`, yields no match of `nameRegexp`; a GET for it is answered by
`serveSVG` with 404 "not found", the same for every state of the server, without
any effect (no lock taken, no map read). -/
theorem nameRegexp_rejects (p : String)
    (h : ¬ viewPath.data <+: p.data ∨
      ∃ t : String, p = viewPath ++ t ∧ (t = "" ∨ '/' ∈ t.data)) :
    regexp.FindStringSubmatch nameRegexp p = [] ∧
    ∀ (w : World) (rw : ResponseWriter) (r : Request),
      r.Method = MethodGet → r.URL.Path = p →
        serveSVG w rw r = (httpError rw "not found" StatusNotFound, w) := by
  have hno : regexp.FindStringSubmatch nameRegexp p = [] := by
    rcases h with h | ⟨t, rfl, ht⟩
    · rw [regexp.FindStringSubmatch_nameRegexp,
        if_neg (fun hc => h (List.isPrefixOf_iff_prefix.mp hc.1))]
    · rw [FindStringSubmatch_view, if_neg]
      rintro ⟨h1, h2⟩
      rcases ht with rfl | ht
      · exact h1 rfl
      · exact h2 ht
  refine ⟨hno, ?_⟩
  intro w rw r hm hp
  exact serveSVG_no_match w rw r hm (hp ▸ hno)

/-- C5, at the paths `/view/`, `/view/abc/def`, `/view/../etc` and `/raw`. -/
theorem nameRegexp_rejects_witness :
    (regexp.FindStringSubmatch nameRegexp "/view/" = [] ∧
      ∀ (w : World) (rw : ResponseWriter) (r : Request),
        r.Method = MethodGet → r.URL.Path = "/view/" →
          serveSVG w rw r = (httpError rw "not found" StatusNotFound, w)) ∧
    (regexp.FindStringSubmatch nameRegexp "/view/abc/def" = [] ∧
      ∀ (w : World) (rw : ResponseWriter) (r : Request),
        r.Method = MethodGet → r.URL.Path = "/view/abc/def" →
          serveSVG w rw r = (httpError rw "not found" StatusNotFound, w)) ∧
    (regexp.FindStringSubmatch nameRegexp "/view/../etc" = [] ∧
      ∀ (w : World) (rw : ResponseWriter) (r : Request),
        r.Method = MethodGet → r.URL.Path = "/view/../etc" →
          serveSVG w rw r = (httpError rw "not found" StatusNotFound, w)) ∧
    (regexp.FindStringSubmatch nameRegexp "/raw" = [] ∧
      ∀ (w : World) (rw : ResponseWriter) (r : Request),
        r.Method = MethodGet → r.URL.Path = "/raw" →
          serveSVG w rw r = (httpError rw "not found" StatusNotFound, w)) :=
  ⟨nameRegexp_rejects "/view/" (Or.inr ⟨"", by decide, Or.inl rfl⟩),
    nameRegexp_rejects "/view/abc/def" (Or.inr ⟨"abc/def", by decide, Or.inr (by decide)⟩),
    nameRegexp_rejects "/view/../etc" (Or.inr ⟨"../etc", by decide, Or.inr (by decide)⟩),
    nameRegexp_rejects "/raw" (Or.inl (by decide))⟩

/-- C6 fails on the code: `nameRegexp` accepts `/view/Report.svg`, whose segment has
characters that are not lowercase hexadecimal digits and is not 32 characters long. -/
theorem nameRegexp_accepts_non_hex_segment :
    regexp.FindStringSubmatch nameRegexp "/view/Report.svg"
      = ["/view/Report.svg", "Report.svg"] ∧
    ¬ (∀ c ∈ "Report.svg".data, isLowerHex c = true) ∧
    "Report.svg".length ≠ 2 * randomNameBytes := by
  decide

/-- C6 as amended: `nameRegexp` accepts a path (its `FindStringSubmatch` has the two
elements `serveSVG` asks for) if and only if the path is `/view/` followed by exactly
one segment: a non-empty string without `/`; and then the second element is that
segment. -/
theorem nameRegexp_accepts_iff (p : String) :
    ((regexp.FindStringSubmatch nameRegexp p).length = 2 ↔
      ∃ t : String, p = viewPath ++ t ∧ t ≠ "" ∧ '/' ∉ t.data) ∧
    ∀ t : String, p = viewPath ++ t → t ≠ "" → '/' ∉ t.data →
      regexp.FindStringSubmatch nameRegexp p = [p, t] := by
  constructor
  · constructor
    · intro hlen
      rw [regexp.FindStringSubmatch_nameRegexp] at hlen
      by_cases hc : viewPath.data.isPrefixOf p.data = true ∧ p.data.drop 6 ≠ [] ∧
          '/' ∉ p.data.drop 6
      · have hpre := List.prefix_iff_eq_append.mp (List.isPrefixOf_iff_prefix.mp hc.1)
        have h6 : viewPath.data.length = 6 := rfl
        rw [h6] at hpre
        refine ⟨String.mk (p.data.drop 6), ?_, ?_, hc.2.2⟩
        · apply String.ext
          rw [viewPath_append_data, hpre]
        · intro h
          exact hc.2.1 (congrArg String.data h)
      · rw [if_neg hc] at hlen
        simp at hlen
    · rintro ⟨t, rfl, hne, hs⟩
      rw [FindStringSubmatch_view, if_pos ⟨string_data_ne_nil t hne, hs⟩]
      rfl
  · rintro t rfl hne hs
    rw [FindStringSubmatch_view, if_pos ⟨string_data_ne_nil t hne, hs⟩]

/-- C7: for every state of the server and every identifier that is not a key of the
`svgs` map, a GET for `/view/` followed by the identifier is answered by `serveSVG`
with the plain-text 404 "not found" reply: status 404, the body is that message and
nothing else, the content type is not the SVG one, and the server is unchanged. -/
theorem serveSVG_unknown_identifier (w : World) (id : String) (r : Request)
    (hk : id ∉ mapKeys w.s.svgs) (hm : r.Method = MethodGet)
    (hp : r.URL.Path = viewPath ++ id) :
    (serveSVG w ResponseWriter.new r).1
      = httpError ResponseWriter.new "not found" StatusNotFound ∧
    (serveSVG w ResponseWriter.new r).1.status = some StatusNotFound ∧
    (serveSVG w ResponseWriter.new r).1.body = stringBytes "not found\n" ∧
    (serveSVG w ResponseWriter.new r).1.Get "Content-Type" ≠ some svgContentType ∧
    (serveSVG w ResponseWriter.new r).2.s.svgs = w.s.svgs := by
  have key : (serveSVG w ResponseWriter.new r).1
        = httpError ResponseWriter.new "not found" StatusNotFound ∧
      (serveSVG w ResponseWriter.new r).2.s.svgs = w.s.svgs := by
    by_cases hid : id.data ≠ [] ∧ '/' ∉ id.data
    · rw [serveSVG_match w _ r id hm hp hid, mapGet_of_not_key _ _ hk]
      exact ⟨rfl, rfl⟩
    · have hf := FindStringSubmatch_view id
      rw [if_neg hid, ← hp] at hf
      rw [serveSVG_no_match w _ r hm hf]
      exact ⟨rfl, rfl⟩
  rw [key.1]
  exact ⟨rfl, by decide, by decide, by decide, key.2⟩

/-- C7, at a store holding one artifact and a well-formed identifier that is not its key. -/
theorem serveSVG_unknown_identifier_witness :
    (serveSVG (processModGraph echoEnv freshWorld [65, 32, 66]).2 ResponseWriter.new
        (getRequest (viewPath ++ "5b9d37f5337909968412a123cfc00973"))).1
      = httpError ResponseWriter.new "not found" StatusNotFound ∧
    (serveSVG (processModGraph echoEnv freshWorld [65, 32, 66]).2 ResponseWriter.new
        (getRequest (viewPath ++ "5b9d37f5337909968412a123cfc00973"))).1.status
      = some StatusNotFound ∧
    (serveSVG (processModGraph echoEnv freshWorld [65, 32, 66]).2 ResponseWriter.new
        (getRequest (viewPath ++ "5b9d37f5337909968412a123cfc00973"))).1.body
      = stringBytes "not found\n" ∧
    (serveSVG (processModGraph echoEnv freshWorld [65, 32, 66]).2 ResponseWriter.new
        (getRequest (viewPath ++ "5b9d37f5337909968412a123cfc00973"))).1.Get "Content-Type"
      ≠ some svgContentType ∧
    (serveSVG (processModGraph echoEnv freshWorld [65, 32, 66]).2 ResponseWriter.new
        (getRequest (viewPath ++ "5b9d37f5337909968412a123cfc00973"))).2.s.svgs
      = (processModGraph echoEnv freshWorld [65, 32, 66]).2.s.svgs :=
  serveSVG_unknown_identifier (processModGraph echoEnv freshWorld [65, 32, 66]).2
    "5b9d37f5337909968412a123cfc00973"
    (getRequest (viewPath ++ "5b9d37f5337909968412a123cfc00973")) (by decide) rfl rfl

/-- C8 fails on the code: a POST to `uploadHandler` whose `graph` field is empty is
answered with status 500, which is not a 4xx status. -/
theorem uploadHandler_empty_graph_status_500 :
    (uploadHandler echoEnv freshWorld ResponseWriter.new
      (postRequest "/upload" [] [("graph", [""])])).1.status = some 500 ∧
    ¬ (400 ≤ 500 ∧ 500 < 500) := by
  decide

/-- C8 as amended: when the upload form's `graph` field is empty or absent,
`uploadHandler` reports the failure with status 500 Internal Server Error and the
plain-text message "no graph contents", and the pipeline is not invoked: the state
is unchanged, no external command is run. -/
theorem uploadHandler_no_graph (env : Env) (w : World) (r : Request)
    (form : List (String × List String)) (hm : r.Method = MethodPost)
    (hf : r.Form = .ok form) (hg : ValuesGet form graphFormName = "") :
    uploadHandler env w ResponseWriter.new r
      = (httpError ResponseWriter.new "no graph contents" StatusInternalServerError, w) ∧
    (uploadHandler env w ResponseWriter.new r).1.status = some StatusInternalServerError ∧
    (uploadHandler env w ResponseWriter.new r).2.trace = w.trace := by
  have key : uploadHandler env w ResponseWriter.new r
      = (httpError ResponseWriter.new "no graph contents" StatusInternalServerError, w) := by
    simp [uploadHandler, uploadHandlerWithErr, hm, hf, hg]
  rw [key]
  exact ⟨rfl, rfl, rfl⟩

/-- C8 as amended, at a form without a `graph` field. -/
theorem uploadHandler_no_graph_witness :
    uploadHandler echoEnv freshWorld ResponseWriter.new (postRequest "/upload" [] [])
      = (httpError ResponseWriter.new "no graph contents" StatusInternalServerError,
          freshWorld) ∧
    (uploadHandler echoEnv freshWorld ResponseWriter.new
      (postRequest "/upload" [] [])).1.status = some StatusInternalServerError ∧
    (uploadHandler echoEnv freshWorld ResponseWriter.new
      (postRequest "/upload" [] [])).2.trace = freshWorld.trace :=
  uploadHandler_no_graph echoEnv freshWorld (postRequest "/upload" [] []) [] rfl rfl rfl

/-- C9: for every sequence `r` of 16 bytes that the random source delivers,
`randomName` returns the hex encoding of `r`, a string of exactly 32 characters each
of which is a lowercase hexadecimal digit; and every path that `processModGraph`
returns without error is `/view/` followed by that token. -/
theorem randomName_lowercase_hex (w : World) (r : List Byte)
    (hr : r.length = randomNameBytes) (hw : w.draw randomNameBytes = r) :
    (randomName w).1 = hex.EncodeToString r ∧
    (randomName w).1.length = 32 ∧
    (∀ c ∈ (randomName w).1.data, isLowerHex c = true) ∧
    ∀ (env : Env) (b : List Byte), (processModGraph env w b).1.2 = none →
      (processModGraph env w b).1.1 = viewPath ++ hex.EncodeToString r := by
  have hname : (randomName w).1 = hex.EncodeToString r := by
    rw [← hw]; rfl
  refine ⟨hname, ?_, ?_, ?_⟩
  · rw [hname, hex.EncodeToString_length, hr]; rfl
  · rw [hname]; exact hex.EncodeToString_isLowerHex r
  · intro env b hok
    cases h1 : (env.exec "modgraphviz" [] b).err with
    | some e =>
      rw [processModGraph_stage1_fails env w b e h1] at hok
      simp at hok
    | none =>
      cases h2 : (env.exec "dot" ["-Tsvg"] (env.exec "modgraphviz" [] b).stdout).err with
      | some e =>
        rw [processModGraph_stage2_fails env w b e h1 h2] at hok
        simp at hok
      | none =>
        cases hr1 : env.exec "modgraphviz" [] b with
        | startFailed e' => rw [hr1] at h1; simp [ProcResult.err] at h1
        | exited out err =>
          rw [hr1] at h1 h2
          simp only [ProcResult.err] at h1
          simp only [ProcResult.stdout] at h2
          subst h1
          cases hr2 : env.exec "dot" ["-Tsvg"] out with
          | startFailed e' => rw [hr2] at h2; simp [ProcResult.err] at h2
          | exited out2 err2 =>
            rw [hr2] at h2
            simp only [ProcResult.err] at h2
            subst h2
            rw [processModGraph_ok env w b out out2 hr1 hr2, hw]

/-- C9, at the random source that delivers the bytes `0, 1, ..., 15`. -/
theorem randomName_lowercase_hex_witness :
    (randomName freshWorld).1
      = hex.EncodeToString [0, 1, 2, 3, 4, 5, 6, 7, 8, 9, 10, 11, 12, 13, 14, 15] ∧
    (randomName freshWorld).1.length = 32 ∧
    (∀ c ∈ (randomName freshWorld).1.data, isLowerHex c = true) ∧
    ∀ (env : Env) (b : List Byte), (processModGraph env freshWorld b).1.2 = none →
      (processModGraph env freshWorld b).1.1
        = viewPath ++ hex.EncodeToString [0, 1, 2, 3, 4, 5, 6, 7, 8, 9, 10, 11, 12, 13, 14, 15] :=
  randomName_lowercase_hex freshWorld [0, 1, 2, 3, 4, 5, 6, 7, 8, 9, 10, 11, 12, 13, 14, 15]
    (by decide) (by decide)

/-- C10: the identifier is the hex encoding of the random draw alone, and that
encoding is injective: two draws give equal identifiers if and only if they are
equal. Hence of two successful renders in a row (of any inputs, identical ones
included) whose draws differ, the two paths differ and afterwards each identifier
still maps to its own artifact; when the draws are equal the identifiers are equal
and the map holds the second artifact. -/
theorem randomName_injective (env : Env) (w : World) (b1 d1 svg1 b2 d2 svg2 : List Byte)
    (h11 : env.exec "modgraphviz" [] b1 = .exited d1 none)
    (h12 : env.exec "dot" ["-Tsvg"] d1 = .exited svg1 none)
    (h21 : env.exec "modgraphviz" [] b2 = .exited d2 none)
    (h22 : env.exec "dot" ["-Tsvg"] d2 = .exited svg2 none) :
    (∀ r1 r2 : List Byte, hex.EncodeToString r1 = hex.EncodeToString r2 ↔ r1 = r2) ∧
    (∀ w1 w2 : World, (randomName w1).1 = (randomName w2).1 ↔
      w1.draw randomNameBytes = w2.draw randomNameBytes) ∧
    (processModGraph env w b1).1
      = (viewPath ++ hex.EncodeToString (w.draw randomNameBytes), none) ∧
    (processModGraph env (processModGraph env w b1).2 b2).1
      = (viewPath ++ hex.EncodeToString ((processModGraph env w b1).2.draw randomNameBytes),
          none) ∧
    (w.draw randomNameBytes ≠ (processModGraph env w b1).2.draw randomNameBytes →
      (processModGraph env w b1).1.1 ≠ (processModGraph env (processModGraph env w b1).2 b2).1.1 ∧
      mapGet (processModGraph env (processModGraph env w b1).2 b2).2.s.svgs
        (hex.EncodeToString (w.draw randomNameBytes)) = some svg1 ∧
      mapGet (processModGraph env (processModGraph env w b1).2 b2).2.s.svgs
        (hex.EncodeToString ((processModGraph env w b1).2.draw randomNameBytes)) = some svg2) ∧
    (w.draw randomNameBytes = (processModGraph env w b1).2.draw randomNameBytes →
      (processModGraph env w b1).1.1 = (processModGraph env (processModGraph env w b1).2 b2).1.1 ∧
      mapGet (processModGraph env (processModGraph env w b1).2 b2).2.s.svgs
        (hex.EncodeToString (w.draw randomNameBytes)) = some svg2) := by
  have hinj : ∀ r1 r2 : List Byte, hex.EncodeToString r1 = hex.EncodeToString r2 ↔ r1 = r2 :=
    fun r1 r2 => ⟨hex.EncodeToString_injective r1 r2, fun h => h ▸ rfl⟩
  have hview : ∀ s t : String, viewPath ++ s = viewPath ++ t ↔ s = t := by
    intro s t
    constructor
    · intro h
      have hd := congrArg String.data h
      rw [viewPath_append_data, viewPath_append_data] at hd
      exact String.ext (List.append_cancel_left hd)
    · intro h; rw [h]
  have e1 := processModGraph_ok env w b1 d1 svg1 h11 h12
  have p1 : (processModGraph env w b1).1
      = (viewPath ++ hex.EncodeToString (w.draw randomNameBytes), none) := by rw [e1]
  have s1 : (processModGraph env w b1).2.s.svgs
      = mapSet w.s.svgs (hex.EncodeToString (w.draw randomNameBytes)) (some svg1) := by
    rw [e1]
  rw [p1]
  generalize (processModGraph env w b1).2 = w1 at s1 ⊢
  rw [processModGraph_ok env w1 b2 d2 svg2 h21 h22]
  refine ⟨hinj, fun _ _ => hinj _ _, rfl, rfl, ?_, ?_⟩
  · intro hne
    have hid : hex.EncodeToString (w.draw randomNameBytes)
        ≠ hex.EncodeToString (w1.draw randomNameBytes) :=
      fun h => hne ((hinj _ _).mp h)
    refine ⟨fun h => hid ((hview _ _).mp h), ?_, mapGet_mapSet_same _ _ _⟩
    show mapGet (mapSet _ _ _) _ = _
    rw [mapGet_mapSet_other _ _ _ _ hid, s1]
    exact mapGet_mapSet_same _ _ _
  · intro heq
    refine ⟨?_, ?_⟩
    · show viewPath ++ _ = viewPath ++ _
      rw [heq]
    · show mapGet (mapSet _ _ _) _ = _
      rw [heq]
      exact mapGet_mapSet_same _ _ _

/-- C10, at two renders of the same input `A B` in a row: the draws `0, ..., 15` and
`16, ..., 31` differ. -/
theorem randomName_injective_witness :
    (processModGraph echoEnv freshWorld [65, 32, 66]).1.1
      ≠ (processModGraph echoEnv
          (processModGraph echoEnv freshWorld [65, 32, 66]).2 [65, 32, 66]).1.1 ∧
    mapGet (processModGraph echoEnv
        (processModGraph echoEnv freshWorld [65, 32, 66]).2 [65, 32, 66]).2.s.svgs
      (hex.EncodeToString (freshWorld.draw randomNameBytes)) = some [65, 32, 66] ∧
    mapGet (processModGraph echoEnv
        (processModGraph echoEnv freshWorld [65, 32, 66]).2 [65, 32, 66]).2.s.svgs
      (hex.EncodeToString
        ((processModGraph echoEnv freshWorld [65, 32, 66]).2.draw randomNameBytes))
      = some [65, 32, 66] :=
  (randomName_injective echoEnv freshWorld [65, 32, 66] [65, 32, 66] [65, 32, 66]
    [65, 32, 66] [65, 32, 66] [65, 32, 66] rfl rfl rfl rfl).2.2.2.2.1 (by decide)

end modgraphweb
